import Mathlib

/-!
Verification of the templimiter daemon (jpcx/templimiter) against its
natural-language specification.

The C++ sources are shallowly embedded here:
  * `tools/string.cc` : `split`, `matches_pattern`
  * `tools/vector.cc` : `pattern_vect_contains`
  * `daemon/pid.cc`   : the `Pid` record, `read_stat_`, `check_whitelist_`,
    `update`, `pid_cpu_pct`, `send_SIGSTOP`, `send_SIGCONT`
  * `daemon/monitor.cc` : the census (`update_pids_`), candidate selection,
    stepwise/all-at-once SIGSTOP/SIGCONT, throttle/dethrottle
  * `daemon/config.cc/.h` : threshold assertions and whitelist loading

Machine integers (`u_long`, `size_t`) are modelled as `Nat` with explicit
wrap-around `% 2^64` where the C++ arithmetic can wrap.  C++ `float` values
produced by `Pid::update` are modelled by `FVal`: exact rationals for finite
values plus explicit `posInf` / `nan` results of division, abstracting IEEE
rounding (all concrete inputs used in theorems below are exactly
representable, and no claim here depends on rounding).  Exceptions are
modelled with `Except ErrKind`.
-/

namespace Templimiter

/-- Word size of `u_long` / `size_t` on the target platform. -/
def U64 : Nat := 2 ^ 64

/-- The value `std::string::npos` / `std::numeric_limits<u_long>::max()`. -/
def NPOS : Nat := U64 - 1

/-- Error kinds of `templimiter::error` (`name()` tags). -/
inductive ErrKind : Type
  | ioError
  | configError
  | internalError
  | typeError
  | argumentError
deriving DecidableEq, Repr

/-- Decidable equality for modelled exception results. -/
instance exceptDecEq {ε α : Type} [DecidableEq ε] [DecidableEq α] :
    DecidableEq (Except ε α)
  | Except.ok a, Except.ok b =>
    match decEq a b with
    | isTrue h => isTrue (by rw [h])
    | isFalse h => isFalse (by intro hc; cases hc; exact h rfl)
  | Except.ok _, Except.error _ => isFalse (by intro hc; cases hc)
  | Except.error _, Except.ok _ => isFalse (by intro hc; cases hc)
  | Except.error a, Except.error b =>
    match decEq a b with
    | isTrue h => isTrue (by rw [h])
    | isFalse h => isFalse (by intro hc; cases hc; exact h rfl)

/-! ## `tools::split` (string.cc, lines 39-71)

Splits on any number of occurrences of `ch`, observing backslash escapes;
empty chunks are never produced. -/

/-- Loop body of `tools::split`: `cur` is the chunk being collected,
`waiting` is the `waiting_next` flag, `acc` the chunks pushed so far.  The
backslash escape consumes the following character when one exists (the C++
guard `str.length() > i + 1`), hence the two-character head pattern. -/
def splitGo (ch : Char) : List Char → List Char → Bool → List (List Char) → List (List Char)
  | [], cur, _, acc => if cur.length > 0 then acc ++ [cur] else acc
  | [c], cur, waiting, acc =>
    if c = ch then
      if waiting = false ∧ cur.length > 0 then
        splitGo ch [] [] true (acc ++ [cur])
      else
        splitGo ch [] cur waiting acc
    else
      splitGo ch [] (cur ++ [c]) false acc
  | c :: d :: rest, cur, waiting, acc =>
    if c = '\\' then
      splitGo ch rest (cur ++ [d]) waiting acc
    else if c = ch then
      if waiting = false ∧ cur.length > 0 then
        splitGo ch (d :: rest) [] true (acc ++ [cur])
      else
        splitGo ch (d :: rest) cur waiting acc
    else
      splitGo ch (d :: rest) (cur ++ [c]) false acc

/-- `tools::split(str, ch)`. -/
def split (str : List Char) (ch : Char) : List (List Char) :=
  splitGo ch str [] false []

/-! ## `tools::matches_pattern` (string.cc, lines 73-105) -/

/-- Whether `frag` occurs in `test` starting exactly at position `p`. -/
def occursAt (test frag : List Char) (p : Nat) : Bool :=
  decide (p + frag.length ≤ test.length) && decide ((test.drop p).take frag.length = frag)

/-- `std::string::find(frag, pos)`: least index `i ≥ pos` at which `frag`
occurs in `test`, or `none` (= `npos`). -/
def strFind (test frag : List Char) (pos : Nat) : Option Nat :=
  (List.range (test.length + 1)).find? fun i => decide (pos ≤ i) && occursAt test frag i

/-- `std::string::find` result as a `size_t` (`npos` when absent). -/
def findIdxSz (test frag : List Char) : Nat :=
  (strFind test frag 0).getD NPOS

/-- Sum of the lengths of a list of chunks (the `std::accumulate` over a
subvector of `patt_spl` in `matches_pattern`). -/
def sumLens (l : List (List Char)) : Nat :=
  l.foldl (fun s v => s + v.length) 0

/-- `tools::matches_pattern(pattern, test)`, embedded statement by statement:
exact comparison when the pattern holds no `*`; otherwise split on unescaped
`*`, check the first-fragment anchor with a prefix compare, check that each
fragment is found at or after the summed length of the preceding fragments,
and check that the first occurrence of the last fragment lies at
`test.length() - last.length()` (a `size_t` subtraction). -/
def matches_pattern (pattern test : List Char) : Bool :=
  if ¬ pattern.contains '*' then decide (pattern = test)
  else
    let patt_spl := split pattern '*'
    if pattern.headD ' ' ≠ '*' ∧ ¬ (List.isPrefixOf (patt_spl.headD []) test) then
      false
    else if (List.range patt_spl.length).any (fun i =>
        (strFind test (patt_spl.getD i []) (sumLens (patt_spl.take i))).isNone) then
      false
    else if pattern.getLastD ' ' ≠ '*' ∧
        findIdxSz test (patt_spl.getLastD []) ≠
          (test.length + U64 - (patt_spl.getLastD []).length) % U64 then
      false
    else
      true

/-- `tools::pattern_vect_contains(pattern_vect, value)` (vector.cc). -/
def pattern_vect_contains (pattern_vect : List (List Char)) (value : List Char) : Bool :=
  pattern_vect.any fun v => matches_pattern v value

/-! ## The specification's glob rule (spec §4.7), stated as its own function

The spec rule: split the pattern on unescaped `*`; the fragments must occur
in order inside the test string, the first anchored to the start unless the
pattern begins with `*`, the last anchored to the end unless the pattern
ends with `*`; the empty pattern matches only the empty string.  This
definition follows the specification's words (not the C++ code) and exists
to be compared against `matches_pattern`. -/

/-- Fragments occur in order in `test` starting at or after `start`; when
`trail = false` the final fragment must end exactly at the end of `test`. -/
def specFragsFrom (test : List Char) (trail : Bool) : List (List Char) → Nat → Bool
  | [], _ => true
  | [f], start =>
    if trail then
      (List.range (test.length + 1)).any fun p =>
        decide (start ≤ p) && occursAt test f p
    else
      decide (f.length ≤ test.length) &&
        decide (start ≤ test.length - f.length) &&
        occursAt test f (test.length - f.length)
  | f :: g :: rest, start =>
    (List.range (test.length + 1)).any fun p =>
      decide (start ≤ p) && occursAt test f p &&
        specFragsFrom test trail (g :: rest) (p + f.length)

/-- The glob rule exactly as the specification states it. -/
def specMatches (pattern test : List Char) : Bool :=
  if pattern.isEmpty then test.isEmpty
  else
    match split pattern '*', decide (pattern.headD ' ' = '*'),
        decide (pattern.getLastD ' ' = '*') with
    | [], _, _ => true
    | f :: rest, lead, trail =>
      if lead then specFragsFrom test trail (f :: rest) 0
      else
        occursAt test f 0 &&
          (match rest with
           | [] => trail || decide (f.length = test.length)
           | g :: rest' => specFragsFrom test trail (g :: rest') f.length)

/-! ## Float values produced by `Pid::update` (pid.cc)

`pid_cpu_pct_` is a C++ `float`.  The numerator and denominator of the
share are `u_long` differences (hence non-negative), so the only IEEE
outcomes of the division are a finite non-negative value, `+inf`
(positive numerator over zero), and `NaN` (zero over zero).  A finite
value is kept exactly, as the fraction `num / den` that produced it
(`den > 0` in every producer); comparisons are exact rational comparisons
by cross-multiplication. -/

/-- Model of the C++ `float` values reachable in `Pid::update`:
`finite num den` stands for the real number `num / den`. -/
inductive FVal : Type
  | finite (num den : Nat)
  | posInf
  | nan
deriving DecidableEq, Repr

/-- The `float` literal `0` (as stored by `pid_cpu_pct_ = 0`). -/
def fzero : FVal := FVal.finite 0 1

/-- IEEE division of two non-negative (integral) `float` operands. -/
def floatDivNN (n d : Nat) : FVal :=
  if d = 0 then (if n = 0 then FVal.nan else FVal.posInf)
  else FVal.finite n d

/-- IEEE `<` on the modelled floats (`NaN` compares false; finite values
compare as the rationals they stand for). -/
def FVal.lt : FVal → FVal → Bool
  | FVal.nan, _ => false
  | _, FVal.nan => false
  | FVal.finite a b, FVal.finite c d => decide (a * d < c * b)
  | FVal.finite _ _, FVal.posInf => true
  | FVal.posInf, _ => false

/-- The rational value a finite `FVal` stands for. -/
def FVal.toRat : FVal → ℚ
  | FVal.finite a b => (a : ℚ) / (b : ℚ)
  | _ => 0

/-! ## The process record (`daemon/pid.cc`, `daemon/pid.h`) -/

/-- The fields `Pid::read_stat_` parses out of `/proc/<pid>/stat`
(`comm` keeps its surrounding parentheses). -/
structure StatData : Type where
  comm : List Char
  state : Char
  ppid : Int
  pgrp : Int
  session : Int
  tty_nr : Int
  tpgid : Int
  flags : Nat
  utime : Nat
  stime : Nat
  cutime : Nat
  cstime : Nat
  nice : Int
deriving DecidableEq, Repr

/-- The whitelist-relevant part of `daemon::Config`, together with the two
stepwise switches the monitor consults. -/
structure MonitorCfg : Type where
  whitelist_max_nice : Int
  whitelist_pid : List Int
  whitelist_comm : List (List Char)
  whitelist_state : List Char
  whitelist_ppid : List Int
  whitelist_pgrp : List Int
  whitelist_session : List Int
  whitelist_tty_nr : List Int
  whitelist_tpgid : List Int
  whitelist_flags : List Nat
  use_stepwise_SIGSTOP : Bool
  use_stepwise_SIGCONT : Bool
deriving DecidableEq, Repr

/-- State of one `Pid` object (pid.h private fields). -/
structure PidState : Type where
  pid : Int
  stat : StatData
  is_a_process : Bool
  is_whitelisted : Bool
  has_received_first_update : Bool
  is_ready : Bool
  is_self_stopped : Bool
  pid_time_prev : Nat
  cpu_time_prev : Nat
  pid_cpu_pct : FVal
deriving DecidableEq, Repr

/-- `Pid::check_whitelist_` (pid.cc, lines 83-96): logical OR of the nice
floor, the six id-set memberships, the flags membership, and the comm
pattern match. -/
def check_whitelist (cfg : MonitorCfg) (pid : Int) (d : StatData) : Bool :=
  decide (d.nice < cfg.whitelist_max_nice) ||
  cfg.whitelist_pid.contains pid ||
  cfg.whitelist_state.contains d.state ||
  cfg.whitelist_ppid.contains d.ppid ||
  cfg.whitelist_pgrp.contains d.pgrp ||
  cfg.whitelist_session.contains d.session ||
  cfg.whitelist_tty_nr.contains d.tty_nr ||
  cfg.whitelist_tpgid.contains d.tpgid ||
  cfg.whitelist_flags.contains d.flags ||
  pattern_vect_contains cfg.whitelist_comm d.comm

/-- Outcome of one read of the record's stat file, as supplied by the
environment: a parsed snapshot, or a thrown error of the given kind. -/
inductive ReadRes : Type
  | ok (d : StatData)
  | err (k : ErrKind)

/-- `Pid::read_stat_` (pid.cc, lines 51-81): on success store the parsed
fields and set `is_a_process_`; a caught error named `IOError` only clears
`is_a_process_`; every other error kind is rethrown. -/
def read_stat (r : ReadRes) (p : PidState) : Except ErrKind PidState :=
  match r with
  | ReadRes.ok d => Except.ok { p with stat := d, is_a_process := true }
  | ReadRes.err ErrKind.ioError => Except.ok { p with is_a_process := false }
  | ReadRes.err k => Except.error k

/-- `utime_ + stime_ + cutime_ + cstime_` in `u_long` arithmetic. -/
def pidTimeOf (d : StatData) : Nat :=
  (d.utime + d.stime + d.cutime + d.cstime) % U64

/-- `u_long` subtraction `a - b` (wrapping). -/
def subWrap (a b : Nat) : Nat :=
  (a % U64 + (U64 - b % U64)) % U64

/-- `Pid::update(cpu_time)` (pid.cc, lines 110-133): re-read the stat file,
recompute the whitelist flag, then either record a first sample, compute
`pid_cpu_pct_` from the two deltas and set `is_ready_`, or (whitelisted)
reset the sample bookkeeping and the share. -/
def Pid.update (cfg : MonitorCfg) (r : ReadRes) (cpu_time : Nat) (p : PidState) :
    Except ErrKind PidState :=
  match read_stat r p with
  | Except.error k => Except.error k
  | Except.ok p1 =>
    let p2 := { p1 with is_whitelisted := check_whitelist cfg p1.pid p1.stat }
    if p2.is_whitelisted = false then
      if p2.has_received_first_update = false then
        Except.ok { p2 with
          pid_time_prev := pidTimeOf p2.stat
          cpu_time_prev := cpu_time
          has_received_first_update := true }
      else
        let pid_time := pidTimeOf p2.stat
        let pid_time_diff := subWrap pid_time p2.pid_time_prev
        let cpu_time_diff := subWrap cpu_time p2.cpu_time_prev
        Except.ok { p2 with
          pid_cpu_pct := floatDivNN pid_time_diff cpu_time_diff
          pid_time_prev := pid_time
          cpu_time_prev := cpu_time
          is_ready := true }
    else
      Except.ok { p2 with
        pid_time_prev := 0
        cpu_time_prev := 0
        pid_cpu_pct := fzero
        has_received_first_update := false }

/-- `Pid::pid_cpu_pct()` (pid.cc, lines 154-157) guarded by
`assert_is_ready_` (lines 44-49), which throws an `InternalError` when the
share has not been calculated yet. -/
def pid_cpu_pct (p : PidState) : Except ErrKind FVal :=
  if p.is_ready = false then Except.error ErrKind.internalError
  else Except.ok p.pid_cpu_pct

/-- A sequence of `Pid::update` calls, each with its read outcome and its
aggregate `cpu_time` argument. -/
def runUpdates (cfg : MonitorCfg) : List (ReadRes × Nat) → PidState → Except ErrKind PidState
  | [], p => Except.ok p
  | (r, ct) :: rest, p =>
    match Pid.update cfg r ct p with
    | Except.error k => Except.error k
    | Except.ok p' => runUpdates cfg rest p'

/-! ## The monitor census and signal actuation (`daemon/monitor.cc`)

The C++ `Monitor` holds `pids_` and `self_stopped_pids_` as vectors of
`shared_ptr<Pid>` aliasing the same objects.  The embedding makes the heap
explicit: `heap` is the list of all `Pid` objects ever allocated (a
`shared_ptr` is its index, so aliasing is exact), and the two vectors are
lists of heap addresses.  File reads are supplied by a `RefreshEnv`;
`sum_cur_cpu_time_` is given per loop iteration (its own fatal failure
paths are outside the claims below).  Emitted signals are collected as
`(signal number, pid)` pairs. -/

/-- Placeholder for the default-initialized stat fields of a fresh `Pid`
object before its first successful read. -/
def statZero : StatData :=
  { comm := [], state := ' ', ppid := 0, pgrp := 0, session := 0, tty_nr := 0
    tpgid := 0, flags := 0, utime := 0, stime := 0, cutime := 0, cstime := 0
    nice := 0 }

/-- A fresh `Pid` object's field state (pid.h in-class initializers; the
numeric fields carry no initializer in the C++ and are never read before
being written, so zero stands in for them). -/
def pidZero (pidn : Int) : PidState :=
  { pid := pidn, stat := statZero, is_a_process := false, is_whitelisted := false
    has_received_first_update := false, is_ready := false, is_self_stopped := false
    pid_time_prev := 0, cpu_time_prev := 0, pid_cpu_pct := fzero }

/-- `Pid::Pid` (pid.cc, lines 98-106): construction runs `read_stat_` and
`check_whitelist_`. -/
def Pid.construct (cfg : MonitorCfg) (pidn : Int) (r : ReadRes) : Except ErrKind PidState :=
  match read_stat r (pidZero pidn) with
  | Except.error k => Except.error k
  | Except.ok p1 => Except.ok { p1 with is_whitelisted := check_whitelist cfg p1.pid p1.stat }

/-- Monitor state: the object heap plus the two address vectors. -/
structure MonState : Type where
  heap : List PidState
  pids : List Nat
  self_stopped : List Nat
deriving DecidableEq, Repr

/-- The monitor's initial state (both vectors empty). -/
def monInit : MonState := ⟨[], [], []⟩

/-- Dereference a heap address. -/
def getRec (heap : List PidState) (a : Nat) : PidState :=
  heap.getD a (pidZero 0)

/-- Store through a heap address. -/
def setRec (heap : List PidState) (a : Nat) (p : PidState) : List PidState :=
  heap.set a p

/-- Set the `is_self_stopped_` flag of the object at address `a`
(the body of `Pid::send_SIGSTOP` / `Pid::send_SIGCONT`, pid.cc 159-167). -/
def setSS (heap : List PidState) (a : Nat) (v : Bool) : List PidState :=
  setRec heap a { getRec heap a with is_self_stopped := v }

/-- Environment of one census refresh: the stat-read outcome and the
`sum_cur_cpu_time_` value for the i-th `update` call, the all-digit
`/proc` entries found by `ls`, and the constructor-read outcome for each
newly allocated pid. -/
structure RefreshEnv : Type where
  readFor : Nat → ReadRes
  cpuFor : Nat → Nat
  newPids : List Int
  ctorRead : Int → ReadRes

/-- The update loop of `Monitor::update_pids_` (monitor.cc, lines 57-59):
`v->update(sum_cur_cpu_time_())` for each record in `pids_` order. -/
def updateLoop (cfg : MonitorCfg) (env : RefreshEnv) :
    List Nat → Nat → List PidState → Except ErrKind (List PidState)
  | [], _, heap => Except.ok heap
  | a :: rest, i, heap =>
    match Pid.update cfg (env.readFor i) (env.cpuFor i) (getRec heap a) with
    | Except.error k => Except.error k
    | Except.ok p' => updateLoop cfg env rest (i + 1) (setRec heap a p')

/-- The insertion loop of `Monitor::update_pids_` (monitor.cc, lines
75-82): each listed pid not present in `pids_` is constructed and pushed. -/
def addNewPids (cfg : MonitorCfg) (env : RefreshEnv) :
    List Int → List PidState → List Nat → Except ErrKind (List PidState × List Nat)
  | [], heap, pids => Except.ok (heap, pids)
  | n :: rest, heap, pids =>
    if pids.any (fun a => (getRec heap a).pid = n) then
      addNewPids cfg env rest heap pids
    else
      match Pid.construct cfg n (env.ctorRead n) with
      | Except.error k => Except.error k
      | Except.ok p => addNewPids cfg env rest (heap ++ [p]) (pids ++ [heap.length])

/-- `Monitor::update_pids_` (monitor.cc, lines 55-83): update every record,
keep only records that are still a process (`pids_`), keep only records
that are still a process and still self-stopped (`self_stopped_pids_`),
then insert records for newly seen pids. -/
def update_pids (cfg : MonitorCfg) (env : RefreshEnv) (s : MonState) :
    Except ErrKind MonState :=
  match updateLoop cfg env s.pids 0 s.heap with
  | Except.error k => Except.error k
  | Except.ok heap1 =>
    let pids1 := s.pids.filter fun a => (getRec heap1 a).is_a_process
    let stopped1 := s.self_stopped.filter fun a =>
      (getRec heap1 a).is_a_process && (getRec heap1 a).is_self_stopped
    match addNewPids cfg env env.newPids heap1 pids1 with
    | Except.error k => Except.error k
    | Except.ok (heap2, pids2) => Except.ok ⟨heap2, pids2, stopped1⟩

/-- `Monitor::find_SIGSTOP_available_pids_` (monitor.cc, lines 85-95). -/
def find_SIGSTOP_available_pids (s : MonState) : List Nat :=
  s.pids.filter fun a =>
    (getRec s.heap a).is_a_process && (getRec s.heap a).is_ready &&
    !(getRec s.heap a).is_whitelisted && !(getRec s.heap a).is_self_stopped

/-- `std::max_element(first, last, comp)`: first element `m` such that
`comp m e` is false for every later `e` (`comp` is the less-than). -/
def cppMaxElement {α : Type} (comp : α → α → Bool) : List α → Option α
  | [] => none
  | x :: xs => some (xs.foldl (fun best next => if comp best next then next else best) x)

/-- `std::min_element(first, last, comp)`: first element `m` such that
`comp e m` is false for every later `e`. -/
def cppMinElement {α : Type} (comp : α → α → Bool) : List α → Option α
  | [] => none
  | x :: xs => some (xs.foldl (fun best next => if comp next best then next else best) x)

/-- `Monitor::send_next_SIGSTOP_` (monitor.cc, lines 158-172): pick
`std::max_element` of the available pids under the comparator
`a->pid_cpu_pct() > b->pid_cpu_pct()`, send signal 19 to it, and push it
onto `self_stopped_pids_`. -/
def send_next_SIGSTOP (s : MonState) (avail : List Nat) : MonState × List (Nat × Int) :=
  match cppMaxElement
      (fun a b => FVal.lt (getRec s.heap b).pid_cpu_pct (getRec s.heap a).pid_cpu_pct)
      avail with
  | none => (s, [])
  | some a =>
    (⟨setSS s.heap a true, s.pids, s.self_stopped ++ [a]⟩,
     [(19, (getRec s.heap a).pid)])

/-- One iteration of `Monitor::send_all_SIGSTOPs_` (monitor.cc, lines
182-185): `v->send_SIGSTOP()` and `self_stopped_pids_.push_back(v)`. -/
def stopStep (acc : MonState × List (Nat × Int)) (a : Nat) : MonState × List (Nat × Int) :=
  (⟨setSS acc.1.heap a true, acc.1.pids, acc.1.self_stopped ++ [a]⟩,
   acc.2 ++ [(19, (getRec acc.1.heap a).pid)])

/-- `Monitor::send_all_SIGSTOPs_` (monitor.cc, lines 180-186). -/
def send_all_SIGSTOPs (s : MonState) (avail : List Nat) : MonState × List (Nat × Int) :=
  avail.foldl stopStep (s, [])

/-- `Monitor::send_next_SIGCONT_` (monitor.cc, lines 143-156): if any
record is self-stopped, send signal 18 to the `std::min_element` under
`a->pid_cpu_pct() < b->pid_cpu_pct()`; the record stays in
`self_stopped_pids_` until the next census filter. -/
def send_next_SIGCONT (s : MonState) : MonState × List (Nat × Int) :=
  if s.self_stopped.length > 0 then
    match cppMinElement
        (fun a b => FVal.lt (getRec s.heap a).pid_cpu_pct (getRec s.heap b).pid_cpu_pct)
        s.self_stopped with
    | none => (s, [])
    | some a => (⟨setSS s.heap a false, s.pids, s.self_stopped⟩,
        [(18, (getRec s.heap a).pid)])
  else (s, [])

/-- One iteration of `Monitor::send_all_SIGCONTs_` (monitor.cc, lines
175-177): `v->send_SIGCONT()` (the vector itself is not modified). -/
def contStep (acc : MonState × List (Nat × Int)) (a : Nat) : MonState × List (Nat × Int) :=
  (⟨setSS acc.1.heap a false, acc.1.pids, acc.1.self_stopped⟩,
   acc.2 ++ [(18, (getRec acc.1.heap a).pid)])

/-- `Monitor::send_all_SIGCONTs_` (monitor.cc, lines 174-178). -/
def send_all_SIGCONTs (s : MonState) : MonState × List (Nat × Int) :=
  s.self_stopped.foldl contStep (s, [])

/-- `Monitor::exec_SIGCONT_` (monitor.cc, lines 188-197).  Note that the
C++ consults `cfg_->use_stepwise_SIGSTOP()` here, not
`use_stepwise_SIGCONT()`. -/
def exec_SIGCONT (cfg : MonitorCfg) (env : RefreshEnv) (s : MonState) :
    Except ErrKind (MonState × List (Nat × Int)) :=
  if s.self_stopped.length > 0 then
    match update_pids cfg env s with
    | Except.error k => Except.error k
    | Except.ok s1 =>
      Except.ok (if cfg.use_stepwise_SIGSTOP then send_next_SIGCONT s1
                 else send_all_SIGCONTs s1)
  else Except.ok (s, [])

/-- `Monitor::exec_SIGSTOP_` (monitor.cc, lines 199-209). -/
def exec_SIGSTOP (cfg : MonitorCfg) (env : RefreshEnv) (s : MonState) :
    Except ErrKind (MonState × List (Nat × Int)) :=
  match update_pids cfg env s with
  | Except.error k => Except.error k
  | Except.ok s1 =>
    let avail := find_SIGSTOP_available_pids s1
    if avail.length > 0 then
      Except.ok (if cfg.use_stepwise_SIGSTOP then send_next_SIGSTOP s1 avail
                 else send_all_SIGSTOPs s1 avail)
    else Except.ok (s1, [])

/-- One monitor operation: a bare census refresh, an `exec_SIGSTOP_`, or an
`exec_SIGCONT_`. -/
inductive MonOp : Type
  | refresh (env : RefreshEnv)
  | sigstop (env : RefreshEnv)
  | sigcont (env : RefreshEnv)

/-- Execute one monitor operation. -/
def stepMon (cfg : MonitorCfg) : MonOp → MonState → Except ErrKind (MonState × List (Nat × Int))
  | MonOp.refresh env, s =>
    (match update_pids cfg env s with
     | Except.error k => Except.error k
     | Except.ok s1 => Except.ok (s1, []))
  | MonOp.sigstop env, s => exec_SIGSTOP cfg env s
  | MonOp.sigcont env, s => exec_SIGCONT cfg env s

/-- Execute a sequence of monitor operations (a run of the daemon in which
each tick performs one of the three census-touching actions). -/
def runOps (cfg : MonitorCfg) : List MonOp → MonState → Except ErrKind MonState
  | [], s => Except.ok s
  | op :: rest, s =>
    match stepMon cfg op s with
    | Except.error k => Except.error k
    | Except.ok (s', _) => runOps cfg rest s'

/-! ## Frequency control (`daemon/monitor.cc`, lines 97-285)

File writes are collected as `(cpu index, value)` pairs and log calls as
message strings; the current ceilings (`scaling_max_freq_files()->read()`)
are a parameter. -/

/-- The throttle-relevant part of `daemon::Config`. -/
structure ThrottleCfg : Type where
  use_scaling_available : Bool
  cpuinfo_max_freqs : List Nat
  cpuinfo_min_freqs : List Nat
  scaling_available_frequencies : List (List Nat)
deriving DecidableEq, Repr

/-- `*std::max_element(v.begin(), v.end())` on a `u_long` vector (the C++
dereference is undefined on an empty vector; theorems below never take
that branch on an empty row). -/
def listMax : List Nat → Nat
  | [] => 0
  | x :: xs => xs.foldl Nat.max x

/-- `*std::min_element(v.begin(), v.end())`, same caveat. -/
def listMin : List Nat → Nat
  | [] => 0
  | x :: xs => xs.foldl Nat.min x

/-- The `max_speeds` vector built by `Monitor::is_below_max_speed_`
(monitor.cc, lines 98-105): per-CPU ladder maxima in discrete mode,
`cpuinfo_max_freqs` otherwise. -/
def max_speeds_of (cfg : ThrottleCfg) : List Nat :=
  if cfg.use_scaling_available then cfg.scaling_available_frequencies.map listMax
  else cfg.cpuinfo_max_freqs

/-- The `min_speeds` vector built by `Monitor::is_above_min_speed_`
(monitor.cc, lines 121-128). -/
def min_speeds_of (cfg : ThrottleCfg) : List Nat :=
  if cfg.use_scaling_available then cfg.scaling_available_frequencies.map listMin
  else cfg.cpuinfo_min_freqs

/-- The comparison loop of `is_below_max_speed_` (monitor.cc, lines
112-117): any current ceiling strictly below its maximum. -/
def belowAny (cfg : ThrottleCfg) (cur_speeds : List Nat) : Bool :=
  (List.range cur_speeds.length).any fun i =>
    decide (cur_speeds.getD i 0 < (max_speeds_of cfg).getD i 0)

/-- The comparison loop of `is_above_min_speed_` (monitor.cc, lines
135-140). -/
def aboveAny (cfg : ThrottleCfg) (cur_speeds : List Nat) : Bool :=
  (List.range cur_speeds.length).any fun i =>
    decide (cur_speeds.getD i 0 > (min_speeds_of cfg).getD i 0)

/-- `Monitor::is_below_max_speed_` (monitor.cc, lines 97-118): compare
`cur_speeds` elementwise against the per-CPU maxima; an `InternalError` is
thrown on a size mismatch. -/
def is_below_max_speed (cfg : ThrottleCfg) (cur_speeds : List Nat) : Except ErrKind Bool :=
  if cur_speeds.length ≠ (max_speeds_of cfg).length then Except.error ErrKind.internalError
  else Except.ok (belowAny cfg cur_speeds)

/-- `Monitor::is_above_min_speed_` (monitor.cc, lines 120-141). -/
def is_above_min_speed (cfg : ThrottleCfg) (cur_speeds : List Nat) : Except ErrKind Bool :=
  if cur_speeds.length ≠ (min_speeds_of cfg).length then Except.error ErrKind.internalError
  else Except.ok (aboveAny cfg cur_speeds)

/-- The loop body of `Monitor::dethrottle_next_higher_` (monitor.cc,
lines 214-224) for one CPU: scan the ladder for the smallest value
strictly above the current ceiling, with sentinel `u_long` max; write it
when found. -/
def nextHigherAt (saf : List (List Nat)) (cur_speeds : List Nat) (i : Nat) :
    Option (Nat × Nat) :=
  let speed := cur_speeds.getD i 0
  let avail := saf.getD i []
  let next := avail.foldl (fun next v => if v < next ∧ v > speed then v else next) NPOS
  if next ≠ NPOS then some (i, next) else none

/-- `Monitor::dethrottle_next_higher_` (monitor.cc, lines 211-226): the
per-CPU scan over every CPU index. -/
def dethrottle_next_higher (saf : List (List Nat)) (cur_speeds : List Nat) :
    List (Nat × Nat) :=
  (List.range cur_speeds.length).filterMap (nextHigherAt saf cur_speeds)

/-- `Monitor::throttle_next_lower_` (monitor.cc, lines 228-242): symmetric
scan with sentinel 0. -/
def throttle_next_lower (saf : List (List Nat)) (cur_speeds : List Nat) :
    List (Nat × Nat) :=
  (List.range cur_speeds.length).filterMap fun i =>
    let speed := cur_speeds.getD i 0
    let avail := saf.getD i []
    let next := avail.foldl (fun next v => if v > next ∧ v < speed then v else next) 0
    if next ≠ 0 then some (i, next) else none

/-- `Monitor::dethrottle_highest_` (monitor.cc, lines 244-250): write
`cpuinfo_max_freqs[i]` to every ceiling file unconditionally. -/
def dethrottle_highest (max_freqs : List Nat) (n_files : Nat) : List (Nat × Nat) :=
  (List.range n_files).map fun i => (i, max_freqs.getD i 0)

/-- `Monitor::throttle_lowest_` (monitor.cc, lines 252-261): write
`cpuinfo_min_freqs[i]` only where the current reading exceeds it. -/
def throttle_lowest (min_freqs : List Nat) (cur_speeds : List Nat) : List (Nat × Nat) :=
  (List.range cur_speeds.length).filterMap fun i =>
    if cur_speeds.getD i 0 > min_freqs.getD i 0 then some (i, min_freqs.getD i 0)
    else none

/-- `Monitor::exec_dethrottle_` (monitor.cc, lines 263-273): read the
current ceilings; when `is_below_max_speed_` holds, log "Dethrottling
CPU." and raise the ceilings (ladder step or jump to `cpuinfo_max`).
Returns `(writes, log lines)`. -/
def exec_dethrottle (cfg : ThrottleCfg) (cur_speeds : List Nat) :
    Except ErrKind (List (Nat × Nat) × List (List Char)) :=
  match is_below_max_speed cfg cur_speeds with
  | Except.error k => Except.error k
  | Except.ok below =>
    if below then
      Except.ok
        (if cfg.use_scaling_available then
            dethrottle_next_higher cfg.scaling_available_frequencies cur_speeds
         else dethrottle_highest cfg.cpuinfo_max_freqs cur_speeds.length,
         ["Dethrottling CPU.".toList])
    else Except.ok ([], [])

/-- `Monitor::exec_throttle_` (monitor.cc, lines 275-285). -/
def exec_throttle (cfg : ThrottleCfg) (cur_speeds : List Nat) :
    Except ErrKind (List (Nat × Nat) × List (List Char)) :=
  match is_above_min_speed cfg cur_speeds with
  | Except.error k => Except.error k
  | Except.ok above =>
    if above then
      Except.ok
        (if cfg.use_scaling_available then
            throttle_next_lower cfg.scaling_available_frequencies cur_speeds
         else throttle_lowest cfg.cpuinfo_min_freqs cur_speeds,
         ["Throttling CPU.".toList])
    else Except.ok ([], [])

/-! ## Configuration thresholds (`daemon/config.cc`, lines 231-334)

`set_and_assert_config_`, restricted to the mode flags and the four
temperature thresholds.  The file-handle constructions interleaved with the
assertions in the C++ can only fail (rejecting the configuration); they
never modify the thresholds, so they are not represented. -/

/-- The mode flags and thresholds of a parsed configuration. -/
structure ConfigTemps : Type where
  use_throttle : Bool
  use_SIGSTOP : Bool
  temp_throttle : Nat
  temp_dethrottle : Nat
  temp_SIGSTOP : Nat
  temp_SIGCONT : Nat
deriving DecidableEq, Repr

/-- The threshold logic of `Config::set_and_assert_config_`:
`assert_any_mode_` (config.cc 65-71), then either
`assert_throttle_gte_dethrottle_` (73-79) or the disabled-mode rewrite to
`u_long` max / 0 (312-316), then either `assert_SIGSTOP_gte_SIGCONT_`
(142-148) or the corresponding rewrite (329-333). -/
def set_and_assert_temps (c : ConfigTemps) : Except ErrKind ConfigTemps :=
  if c.use_throttle = false ∧ c.use_SIGSTOP = false then Except.error ErrKind.configError
  else
    match (if c.use_throttle then
            (if c.temp_throttle < c.temp_dethrottle then Except.error ErrKind.configError
             else Except.ok c)
           else Except.ok { c with temp_throttle := NPOS, temp_dethrottle := 0 } :
          Except ErrKind ConfigTemps) with
    | Except.error k => Except.error k
    | Except.ok c1 =>
      if c1.use_SIGSTOP then
        (if c1.temp_SIGSTOP < c1.temp_SIGCONT then Except.error ErrKind.configError
         else Except.ok c1)
      else Except.ok { c1 with temp_SIGSTOP := NPOS, temp_SIGCONT := 0 }

/-! ## Whitelist-pid loading (`daemon/config.cc` / `config.h`)

`load_config_values_` (config.cc, lines 184-229) loads `whitelist_pid`
through the vector `load_from_tag_` (config.h, lines 338-379) and then
runs `whitelist_pid_.push_back(own_pid_)`. -/

/-- Value of a decimal digit character. -/
def digitVal (c : Char) : Option Nat :=
  if '0' ≤ c ∧ c ≤ '9' then some (c.toNat - 48) else none

/-- Parse a non-empty all-digit string. -/
def parseNat (s : List Char) : Option Nat :=
  if s = [] then none
  else s.foldl (fun acc c =>
    match acc, digitVal c with
    | some a, some d => some (a * 10 + d)
    | _, _ => none) (some 0)

/-- `tools::convert<pid_t>(string)`: stream-parse, then compare the
canonical rendering of the result against the input and throw `TypeError`
on mismatch (type-convert.h, lines 157-167) — so exactly the canonical
decimal strings convert.  Embedded directly as a canonical-decimal parser:
an optional minus sign on a nonzero value, no leading zeros, digits only. -/
def convertInt (s : List Char) : Option Int :=
  match s with
  | [] => none
  | '-' :: rest =>
    (match parseNat rest with
     | some n => if rest.headD '0' ≠ '0' ∧ n ≠ 0 then some (-(n : Int)) else none
     | none => none)
  | _ =>
    (match parseNat s with
     | some n => if s.headD '0' ≠ '0' ∨ s = ['0'] then some (n : Int) else none
     | none => none)

/-- `Config::indices_of_tag_` (config.cc, lines 171-182): indices of config
lines whose first split token equals the tag. -/
def indices_of_tag (lines : List (List Char)) (tag : List Char) : List Nat :=
  (List.range lines.length).filter fun i =>
    ((split (lines.getD i []) ' ').headD []) = tag

/-- The vector overload of `Config::load_from_tag_` at `pid_t`: default on
a missing tag or an empty value list; `ConfigError` on a duplicated tag or
a failed conversion; otherwise the converted tokens after the tag. -/
def load_from_tag_vec_int (lines : List (List Char)) (tag : List Char)
    (defval : List Int) : Except ErrKind (List Int) :=
  match indices_of_tag lines tag with
  | [] => Except.ok defval
  | [i] =>
    let val_strs := (split (lines.getD i []) ' ').tail
    if val_strs.length < 1 then Except.ok defval
    else
      match val_strs.mapM convertInt with
      | some vs => Except.ok vs
      | none => Except.error ErrKind.configError
  | _ => Except.error ErrKind.configError

/-- The `whitelist_pid` steps of `Config::load_config_values_` (config.cc,
lines 187-189): load the list (class default: empty) and then
`push_back(own_pid_)`. -/
def load_whitelist_pid (lines : List (List Char)) (own_pid : Int) :
    Except ErrKind (List Int) :=
  match load_from_tag_vec_int lines "whitelist_pid".toList [] with
  | Except.error k => Except.error k
  | Except.ok v => Except.ok (v ++ [own_pid])

/-! ## Concrete inputs used by the theorems below -/

/-- A configuration whose whitelists match nothing (the `whitelist_max_nice`
default `-21` from config.h disables the nice floor). -/
def cfgPlain : MonitorCfg :=
  { whitelist_max_nice := -21, whitelist_pid := [], whitelist_comm := []
    whitelist_state := [], whitelist_ppid := [], whitelist_pgrp := []
    whitelist_session := [], whitelist_tty_nr := [], whitelist_tpgid := []
    whitelist_flags := [], use_stepwise_SIGSTOP := true, use_stepwise_SIGCONT := false }

/-- A stat snapshot with the given state character and `utime` (all other
time fields zero, nice 0). -/
def statS (st : Char) (u : Nat) : StatData :=
  { statZero with comm := "(someproc)".toList, state := st, utime := u }

/-- Census tick creating three processes 10, 11, 12. -/
def c1e0 : RefreshEnv :=
  { readFor := fun _ => ReadRes.ok (statS 'R' 0), cpuFor := fun _ => 0
    newPids := [10, 11, 12], ctorRead := fun _ => ReadRes.ok (statS 'R' 0) }

/-- Census tick giving each of the three records its first sample. -/
def c1e1 : RefreshEnv :=
  { readFor := fun _ => ReadRes.ok (statS 'R' 0), cpuFor := fun _ => 0
    newPids := [], ctorRead := fun _ => ReadRes.ok (statS 'R' 0) }

/-- Census tick producing cpu shares 1/16, 8/16 and 4/16 for the records
at heap addresses 0, 1 and 2 (pids 10, 11, 12). -/
def c1e2 : RefreshEnv :=
  { readFor := fun i => ReadRes.ok (statS 'R' (if i = 0 then 1 else if i = 1 then 8 else 4))
    cpuFor := fun _ => 16, newPids := [], ctorRead := fun _ => ReadRes.ok (statS 'R' 0) }

/-- Two census refreshes to make the three candidates ready, then one
`exec_SIGSTOP_` in stepwise mode. -/
def c1run : Except ErrKind (MonState × List (Nat × Int)) :=
  match runOps cfgPlain [MonOp.refresh c1e0, MonOp.refresh c1e1] monInit with
  | Except.error k => Except.error k
  | Except.ok s => exec_SIGSTOP cfgPlain c1e2 s

/-- Configuration with `use_stepwise_SIGSTOP = false` and
`use_stepwise_SIGCONT = true`: stops are all-at-once, continues are meant
to be stepwise. -/
def cfgC2 : MonitorCfg :=
  { cfgPlain with use_stepwise_SIGSTOP := false, use_stepwise_SIGCONT := true }

/-- Census tick creating processes 20 and 21. -/
def c2e0 : RefreshEnv :=
  { readFor := fun _ => ReadRes.ok (statS 'R' 0), cpuFor := fun _ => 0
    newPids := [20, 21], ctorRead := fun _ => ReadRes.ok (statS 'R' 0) }

/-- Census tick giving both records their first sample. -/
def c2e1 : RefreshEnv :=
  { readFor := fun _ => ReadRes.ok (statS 'R' 0), cpuFor := fun _ => 0
    newPids := [], ctorRead := fun _ => ReadRes.ok (statS 'R' 0) }

/-- Census tick producing cpu shares 1/8 and 5/8. -/
def c2e2 : RefreshEnv :=
  { readFor := fun i => ReadRes.ok (statS 'R' (if i = 0 then 1 else 5))
    cpuFor := fun _ => 8, newPids := [], ctorRead := fun _ => ReadRes.ok (statS 'R' 0) }

/-- The continue tick for the C2 run (same readings again). -/
def c2e3 : RefreshEnv :=
  { readFor := fun i => ReadRes.ok (statS 'R' (if i = 0 then 1 else 5))
    cpuFor := fun _ => 8, newPids := [], ctorRead := fun _ => ReadRes.ok (statS 'R' 0) }

/-- Make both processes self-stopped (all-at-once stop), then run
`exec_SIGCONT_`. -/
def c2run : Except ErrKind (MonState × List (Nat × Int)) :=
  match runOps cfgC2 [MonOp.refresh c2e0, MonOp.refresh c2e1, MonOp.sigstop c2e2] monInit with
  | Except.error k => Except.error k
  | Except.ok s => exec_SIGCONT cfgC2 c2e3 s

/-- Configuration whitelisting processes in state `Z`. -/
def cfgC3 : MonitorCfg := { cfgPlain with whitelist_state := ['Z'] }

/-- Census tick creating process 10 (state `R`). -/
def c3e0 : RefreshEnv :=
  { readFor := fun _ => ReadRes.ok (statS 'R' 0), cpuFor := fun _ => 0
    newPids := [10], ctorRead := fun _ => ReadRes.ok (statS 'R' 0) }

/-- Census tick giving the record its first sample. -/
def c3e1 : RefreshEnv :=
  { readFor := fun _ => ReadRes.ok (statS 'R' 0), cpuFor := fun _ => 0
    newPids := [], ctorRead := fun _ => ReadRes.ok (statS 'R' 0) }

/-- Census tick making the record ready (share 1/4). -/
def c3e2 : RefreshEnv :=
  { readFor := fun _ => ReadRes.ok (statS 'R' 1), cpuFor := fun _ => 4
    newPids := [], ctorRead := fun _ => ReadRes.ok (statS 'R' 0) }

/-- Census tick in which the stopped process has moved to state `Z` and so
becomes whitelisted. -/
def c3e3 : RefreshEnv :=
  { readFor := fun _ => ReadRes.ok (statS 'Z' 1), cpuFor := fun _ => 8
    newPids := [], ctorRead := fun _ => ReadRes.ok (statS 'R' 0) }

/-- Create, sample, stop, then whitelist the process. -/
def c3run : Except ErrKind MonState :=
  runOps cfgC3 [MonOp.refresh c3e0, MonOp.refresh c3e1, MonOp.sigstop c3e2,
    MonOp.refresh c3e3] monInit

/-- The state reached by the first three C3 operations (used to witness the
amended invariant on a concrete reachable state). -/
def c3wOps : List MonOp := [MonOp.refresh c3e0, MonOp.refresh c3e1, MonOp.sigstop c3e2]

/-- The concrete state reached by `c3wOps`. -/
def c3wS : MonState := (runOps cfgC3 c3wOps monInit).toOption.getD monInit

/-- A record on its second or later sample, not whitelisted, with previous
samples `pid_time_prev = 5`, `cpu_time_prev = 100`. -/
def p6 : PidState :=
  { pid := 10, stat := statS 'R' 5, is_a_process := true, is_whitelisted := false
    has_received_first_update := true, is_ready := true, is_self_stopped := false
    pid_time_prev := 5, cpu_time_prev := 100, pid_cpu_pct := fzero }

/-- A record whose previous successful read is `statS 'R' 5`, consistent
previous samples, not yet ready, share 1/2 stored from elsewhere. -/
def p8 : PidState :=
  { pid := 11, stat := statS 'R' 5, is_a_process := true, is_whitelisted := false
    has_received_first_update := true, is_ready := false, is_self_stopped := false
    pid_time_prev := 5, cpu_time_prev := 50, pid_cpu_pct := FVal.finite 1 2 }

/-- A config file consisting of the single line `whitelist_pid 5`. -/
def c9lines : List (List Char) := ["whitelist_pid 5".toList]

/-- A non-discrete throttle configuration with two CPUs at hw max 3000. -/
def cfg4w : ThrottleCfg :=
  { use_scaling_available := false, cpuinfo_max_freqs := [3000, 3000]
    cpuinfo_min_freqs := [800, 800], scaling_available_frequencies := [] }

/-- A parsed configuration with both modes on and valid thresholds. -/
def c5w : ConfigTemps :=
  { use_throttle := true, use_SIGSTOP := true, temp_throttle := 66000
    temp_dethrottle := 60000, temp_SIGSTOP := 70000, temp_SIGCONT := 66000 }

/-- The thresholds accepted from `c5w`. -/
def c5wOut : ConfigTemps := (set_and_assert_temps c5w).toOption.getD c5w

/-- The record state reached from `p6` by one further successful update. -/
def p10w : PidState :=
  (runUpdates cfgPlain [(ReadRes.ok (statS 'R' 7), 110)] p6).toOption.getD p6

/-! ## Theorems -/

/-- C1: the claim states that in stepwise stop mode `exec_SIGSTOP_` signals
the candidate with the highest cpu share.  The code does the opposite:
`send_next_SIGSTOP_` passes the greater-than comparator
`a->pid_cpu_pct() > b->pid_cpu_pct()` to `std::max_element`, whose
comparator argument is a less-than, so the selection is inverted.  On three
ready candidates with shares 1/16 (pid 10), 8/16 (pid 11) and 4/16
(pid 12), the tick sends SIGSTOP to pid 10 — the lowest share — and records
only heap address 0 in `self_stopped_pids_`. -/
theorem C1_stepwise_stop_picks_lowest_share :
    c1run.map (fun r => (r.2, r.1.self_stopped)) = Except.ok ([(19, 10)], [0]) ∧
    c1run.map (fun r =>
        [(getRec r.1.heap 0).pid_cpu_pct, (getRec r.1.heap 1).pid_cpu_pct,
         (getRec r.1.heap 2).pid_cpu_pct]) =
      Except.ok [FVal.finite 1 16, FVal.finite 8 16, FVal.finite 4 16] := by
  constructor
  · decide
  · decide

/-- C2: the claim states that `exec_SIGCONT_` consults
`use_stepwise_SIGCONT` and, when it is enabled, continues only the
self-stopped record with the lowest cpu share.  The code consults
`use_stepwise_SIGSTOP` instead (monitor.cc line 191); with
`use_stepwise_SIGSTOP = false` and `use_stepwise_SIGCONT = true` and two
self-stopped records of shares 1/8 (pid 20) and 5/8 (pid 21), the tick
sends SIGCONT to both records instead of only the lowest-share one. -/
theorem C2_continue_consults_wrong_switch :
    c2run.map (fun r => (r.2, r.1.self_stopped)) =
      Except.ok ([(18, 20), (18, 21)], [0, 1]) ∧
    cfgC2.use_stepwise_SIGCONT = true ∧ cfgC2.use_stepwise_SIGSTOP = false := by
  refine ⟨by decide, by decide, by decide⟩

/-- C3 counterexample: after creating, sampling, and stopping process 10,
a further census in which its state becomes whitelisted (`Z`) leaves it in
`self_stopped_pids_` with its whitelisted flag true — the census filter
(monitor.cc lines 62-64) checks `is_a_process` and `is_self_stopped` but
never the whitelist.  This falsifies the claim's "no record whose
whitelisted flag is true is in self_stopped". -/
theorem C3_whitelisted_record_remains_stopped :
    c3run.map (fun s => (s.self_stopped, (getRec s.heap 0).is_whitelisted,
      (getRec s.heap 0).is_self_stopped)) = Except.ok ([0], true, true) := by
  decide

/-- C6 counterexample: with a zero aggregate-cpu-time delta
(`cpu_time_prev = 100`, new `cpu_time = 100`) and a positive pid-time
delta (5 to 7), `Pid::update` stores `+inf` in `pid_cpu_pct_` — the C++
divides unconditionally (pid.cc line 122) and never sets the share to 0 on
a zero denominator. -/
theorem C6_zero_delta_stores_infinity :
    (Pid.update cfgPlain (ReadRes.ok (statS 'R' 7)) 100 p6).map
        (fun q => q.pid_cpu_pct) = Except.ok FVal.posInf ∧
    FVal.posInf ≠ fzero := by
  refine ⟨by decide, by decide⟩

/-- C8 counterexample: an IO-kind failure of the stat re-read does not
leave the record otherwise untouched: `Pid::update` keeps going after
`read_stat_` (pid.cc lines 110-133), so the stale snapshot drives the
share computation — here the share changes from 1/2 to 0 and the ready
flag flips from false to true, alongside the not-live mark.  This
falsifies the claim's "the record is only marked not-live". -/
theorem C8_failed_read_still_updates_share :
    (Pid.update cfgPlain (ReadRes.err ErrKind.ioError) 60 p8).map
        (fun q => (q.is_a_process, q.is_ready, q.pid_cpu_pct)) =
      Except.ok (false, true, FVal.finite 0 10) ∧
    p8.is_ready = false ∧ p8.pid_cpu_pct = FVal.finite 1 2 := by
  refine ⟨by decide, by decide, by decide⟩

/-- C9 counterexample: for the config line `whitelist_pid 5` and own pid 7,
`load_config_values_` produces `[5, 7]` — the own pid is appended by
`push_back` (config.cc line 189), not prepended, so it is not the first
element. -/
theorem C9_own_pid_is_last_not_first :
    load_whitelist_pid c9lines 7 = Except.ok [5, 7] ∧
    ([5, 7] : List Int).headD 0 ≠ 7 := by
  refine ⟨by decide, by decide⟩

/-- C7: the claim states the spec's glob rule for `matches_pattern`.  The
code diverges from it in both directions.  For pattern `*ab*cd*` and test
`xxcdab` the code returns true although the fragments `ab`, `cd` do not
occur in order: the in-order check (string.cc lines 87-96) searches each
fragment from the summed lengths of the preceding fragments instead of
from the end of the previous match (contradicting its own comment "start
from last found index each iteration").  For pattern `*ab` and test
`abxab` the code returns false although the test ends with `ab`: the
end-anchor check (lines 98-101) uses the first occurrence of the last
fragment instead of an occurrence at the end. -/
theorem C7_matcher_diverges_from_spec_rule :
    matches_pattern "*ab*cd*".toList "xxcdab".toList = true ∧
    specMatches "*ab*cd*".toList "xxcdab".toList = false ∧
    matches_pattern "*ab".toList "abxab".toList = false ∧
    specMatches "*ab".toList "abxab".toList = true := by
  refine ⟨by decide, by decide, by decide, by decide⟩

/-- C6 amended: on a second-or-later sample of a non-whitelisted record
with a zero aggregate-cpu-time delta, `Pid::update` still succeeds (no
failure), but the stored `pid_cpu_pct_` is the IEEE result of the division
by zero — `NaN` when the pid-time delta is also zero, `+inf` otherwise —
rather than 0. -/
theorem C6_zero_delta_yields_nonfinite_share (cfg : MonitorCfg) (d : StatData)
    (ct : Nat) (p : PidState)
    (hwl : check_whitelist cfg p.pid d = false)
    (hfirst : p.has_received_first_update = true)
    (hzero : subWrap ct p.cpu_time_prev = 0) :
    ∃ p', Pid.update cfg (ReadRes.ok d) ct p = Except.ok p' ∧
      p'.pid_cpu_pct =
        (if subWrap (pidTimeOf d) p.pid_time_prev = 0 then FVal.nan else FVal.posInf) := by
  simp only [Pid.update, read_stat]
  simp only [hwl, hfirst, hzero, floatDivNN]
  split
  · exact ⟨_, rfl, by simp_all⟩
  · exact ⟨_, rfl, by simp_all⟩

/-- C6 witness: the amended statement at the concrete counterexample
input (positive pid-time delta, zero cpu-time delta). -/
theorem C6_zero_delta_yields_nonfinite_share_witness :
    ∃ p', Pid.update cfgPlain (ReadRes.ok (statS 'R' 7)) 100 p6 = Except.ok p' ∧
      p'.pid_cpu_pct =
        (if subWrap (pidTimeOf (statS 'R' 7)) p6.pid_time_prev = 0 then FVal.nan
         else FVal.posInf) :=
  C6_zero_delta_yields_nonfinite_share cfgPlain (statS 'R' 7) 100 p6
    (by decide) (by decide) (by decide)

/-- C8 amended: an IO-kind failure of the stat re-read never raises out of
`Pid::update` and marks the record not-live (the census continues), while
an error of any other kind propagates; however the update does not return
immediately on the IO failure — it recomputes the whitelist flag and the
share bookkeeping from the stale snapshot, so fields beyond the live flag
may change too (see the counterexample theorem). -/
theorem C8_io_error_masked_others_propagate (cfg : MonitorCfg) (ct : Nat) (p : PidState) :
    (∃ q, Pid.update cfg (ReadRes.err ErrKind.ioError) ct p = Except.ok q ∧
      q.is_a_process = false) ∧
    (∀ k : ErrKind, k ≠ ErrKind.ioError →
      Pid.update cfg (ReadRes.err k) ct p = Except.error k) := by
  constructor
  · simp only [Pid.update, read_stat]
    split
    · split
      · exact ⟨_, rfl, rfl⟩
      · exact ⟨_, rfl, rfl⟩
    · exact ⟨_, rfl, rfl⟩
  · intro k hk
    cases k <;> first
      | exact absurd rfl hk
      | simp [Pid.update, read_stat]

/-- C8 witness: the amended statement at the concrete record `p8`, with
the non-IO kind instantiated to a config error. -/
theorem C8_io_error_masked_others_propagate_witness :
    (∃ q, Pid.update cfgPlain (ReadRes.err ErrKind.ioError) 60 p8 = Except.ok q ∧
      q.is_a_process = false) ∧
    Pid.update cfgPlain (ReadRes.err ErrKind.configError) 60 p8 =
      Except.error ErrKind.configError :=
  ⟨(C8_io_error_masked_others_propagate cfgPlain 60 p8).1,
   (C8_io_error_masked_others_propagate cfgPlain 60 p8).2 ErrKind.configError (by decide)⟩

/-- C9 amended: whenever `load_config_values_` accepts a configuration,
the daemon's own pid is appended (`push_back`) to the pid whitelist: it is
always a member — the last element — but not in general the first. -/
theorem C9_own_pid_appended (lines : List (List Char)) (own : Int) (r : List Int)
    (h : load_whitelist_pid lines own = Except.ok r) :
    own ∈ r ∧ r.getLast? = some own := by
  unfold load_whitelist_pid at h
  cases hL : load_from_tag_vec_int lines ("whitelist_pid".toList) [] with
  | error k => rw [hL] at h; cases h
  | ok v =>
    rw [hL] at h
    simp only [Except.ok.injEq] at h
    subst h
    exact ⟨List.mem_append_right _ (List.mem_singleton_self own), List.getLast?_concat _⟩

/-- C9 witness: the amended statement at the one-line config
`whitelist_pid 5` with own pid 7. -/
theorem C9_own_pid_appended_witness :
    (7 : Int) ∈ ([5, 7] : List Int) ∧ ([5, 7] : List Int).getLast? = some 7 :=
  C9_own_pid_appended c9lines 7 [5, 7] (by decide)

/-- One `Pid::update` never clears `is_ready_`: the whitelisted branch
leaves it untouched and the sampling branches only ever set it. -/
theorem update_ready_mono (cfg : MonitorCfg) (r : ReadRes) (ct : Nat) (p p' : PidState)
    (h : Pid.update cfg r ct p = Except.ok p') (hr : p.is_ready = true) :
    p'.is_ready = true := by
  cases r with
  | ok d =>
    simp only [Pid.update, read_stat] at h
    split at h
    · split at h
      · cases h; exact hr
      · cases h; rfl
    · cases h; exact hr
  | err k =>
    cases k with
    | ioError =>
      simp only [Pid.update, read_stat] at h
      split at h
      · split at h
        · cases h; exact hr
        · cases h; rfl
      · cases h; exact hr
    | configError => simp [Pid.update, read_stat] at h
    | internalError => simp [Pid.update, read_stat] at h
    | typeError => simp [Pid.update, read_stat] at h
    | argumentError => simp [Pid.update, read_stat] at h

/-- A whole sequence of updates never clears `is_ready_`. -/
theorem runUpdates_ready_mono (cfg : MonitorCfg) :
    ∀ (l : List (ReadRes × Nat)) (p p' : PidState),
      runUpdates cfg l p = Except.ok p' → p.is_ready = true → p'.is_ready = true := by
  intro l
  induction l with
  | nil =>
    intro p p' h hr
    simp only [runUpdates] at h
    cases h
    exact hr
  | cons x rest ih =>
    intro p p' h hr
    obtain ⟨r, ct⟩ := x
    simp only [runUpdates] at h
    cases hu : Pid.update cfg r ct p with
    | error k => rw [hu] at h; cases h
    | ok q => rw [hu] at h; exact ih q p' h (update_ready_mono cfg r ct p q hu hr)

/-- C10: once a record's `is_ready_` flag is true, no sequence of updates
ever clears it; an update that finds the record whitelisted resets the
share to 0 and clears `has_received_first_update_` but leaves `is_ready_`
as it was; and whenever `is_ready_` holds, `pid_cpu_pct()` returns the
stored share instead of throwing the Internal not-ready error. -/
theorem C10_ready_never_cleared (cfg : MonitorCfg) :
    (∀ (l : List (ReadRes × Nat)) (p p' : PidState),
      runUpdates cfg l p = Except.ok p' → p.is_ready = true → p'.is_ready = true) ∧
    (∀ (r : ReadRes) (ct : Nat) (p p' : PidState),
      Pid.update cfg r ct p = Except.ok p' → p'.is_whitelisted = true →
      p'.pid_cpu_pct = fzero ∧ p'.has_received_first_update = false ∧
        p'.is_ready = p.is_ready) ∧
    (∀ p : PidState, p.is_ready = true → pid_cpu_pct p = Except.ok p.pid_cpu_pct) := by
  refine ⟨runUpdates_ready_mono cfg, ?_, ?_⟩
  · intro r ct p p' h hw
    cases r with
    | ok d =>
      simp only [Pid.update, read_stat] at h
      split at h
      · rename_i hcond
        split at h <;> (cases h; simp_all)
      · cases h; exact ⟨rfl, rfl, rfl⟩
    | err k =>
      cases k with
      | ioError =>
        simp only [Pid.update, read_stat] at h
        split at h
        · rename_i hcond
          split at h <;> (cases h; simp_all)
        · cases h; exact ⟨rfl, rfl, rfl⟩
      | configError => simp [Pid.update, read_stat] at h
      | internalError => simp [Pid.update, read_stat] at h
      | typeError => simp [Pid.update, read_stat] at h
      | argumentError => simp [Pid.update, read_stat] at h
  · intro p hr
    simp [pid_cpu_pct, hr]

/-- C10 witness: the theorem applied to one concrete successful update of
the ready record `p6` and to the getter at `p6`. -/
theorem C10_ready_never_cleared_witness :
    p10w.is_ready = true ∧ pid_cpu_pct p6 = Except.ok p6.pid_cpu_pct :=
  ⟨(C10_ready_never_cleared cfgPlain).1 [(ReadRes.ok (statS 'R' 7), 110)] p6 p10w
      (by decide) (by decide),
   (C10_ready_never_cleared cfgPlain).2.2 p6 (by decide)⟩

/-- A left fold with a function that always picks one of its arguments
stays inside the start-or-elements set. -/
theorem foldl_pick_mem {α : Type} (f : α → α → α) (hf : ∀ a b, f a b = a ∨ f a b = b) :
    ∀ (xs : List α) (x : α), xs.foldl f x ∈ x :: xs := by
  intro xs
  induction xs with
  | nil => intro x; exact List.mem_singleton_self x
  | cons y ys ih =>
    intro x
    simp only [List.foldl]
    rcases hf x y with h3 | h3 <;> rw [h3]
    · rcases List.mem_cons.mp (ih x) with h2 | h2
      · rw [h2]; exact List.mem_cons_self _ _
      · exact List.mem_cons_of_mem _ (List.mem_cons_of_mem _ h2)
    · rcases List.mem_cons.mp (ih y) with h2 | h2
      · rw [h2]; exact List.mem_cons_of_mem _ (List.mem_cons_self _ _)
      · exact List.mem_cons_of_mem _ (List.mem_cons_of_mem _ h2)

/-- The maximum computed by `*std::max_element` is an element of a
non-empty vector. -/
theorem listMax_mem (l : List Nat) (h : l ≠ []) : listMax l ∈ l := by
  cases l with
  | nil => exact absurd rfl h
  | cons x xs =>
    refine foldl_pick_mem Nat.max ?_ xs x
    intro a b
    rcases Nat.le_total a b with hab | hab
    · right; exact Nat.max_eq_right hab
    · left; exact Nat.max_eq_left hab

/-- The ladder scan of `dethrottle_next_higher_` ends strictly below the
`u_long` max sentinel whenever the row holds a value above the current
speed and below the sentinel (or the scan already started below it). -/
theorem dethrottleFold_lt (speed : Nat) :
    ∀ (l : List Nat) (s : Nat),
      ((∃ v ∈ l, speed < v ∧ v < NPOS) ∨ s < NPOS) →
      l.foldl (fun next v => if v < next ∧ v > speed then v else next) s < NPOS := by
  intro l
  induction l with
  | nil =>
    intro s h
    rcases h with ⟨v, hv, _⟩ | h
    · cases hv
    · exact h
  | cons v0 l' ih =>
    intro s h
    simp only [List.foldl]
    apply ih
    rcases h with ⟨v, hv, hsp, hnp⟩ | hs
    · rcases List.mem_cons.mp hv with h2 | hv'
      · subst h2
        right
        by_cases hc : v < s ∧ v > speed
        · simp only [if_pos hc]; exact hnp
        · simp only [if_neg hc]
          have hns : ¬ v < s := fun hlt => hc ⟨hlt, hsp⟩
          omega
      · exact Or.inl ⟨v, hv', hsp, hnp⟩
    · right
      by_cases hc : v0 < s ∧ v0 > speed
      · simp only [if_pos hc]; omega
      · simp only [if_neg hc]; exact hs

/-- The guard of `exec_dethrottle_` holds exactly when some current
ceiling is strictly below its maximum. -/
theorem belowAny_iff (cfg : ThrottleCfg) (cur : List Nat) :
    belowAny cfg cur = true ↔
      ∃ i, i < cur.length ∧ cur.getD i 0 < (max_speeds_of cfg).getD i 0 := by
  simp [belowAny, List.any_eq_true, List.mem_range]

/-- C4: when every current ceiling equals its maximum (hardware max, or
ladder max in discrete mode), `exec_dethrottle_` performs no file write
and emits no log line; and in general, given the size agreement the
configuration verification guarantees (and ladder entries below the
`u_long` sentinel), the tick logs and writes exactly when at least one
current ceiling is strictly below its maximum. -/
theorem C4_dethrottle_iff (cfg : ThrottleCfg) (cur : List Nat)
    (hlen : cur.length = (max_speeds_of cfg).length)
    (hlad : ∀ row ∈ cfg.scaling_available_frequencies, ∀ v ∈ row, v < NPOS) :
    ((∀ i, i < cur.length → cur.getD i 0 = (max_speeds_of cfg).getD i 0) →
      exec_dethrottle cfg cur = Except.ok ([], [])) ∧
    (∀ w lg, exec_dethrottle cfg cur = Except.ok (w, lg) →
      ((lg ≠ [] ↔ ∃ i, i < cur.length ∧ cur.getD i 0 < (max_speeds_of cfg).getD i 0) ∧
       (w ≠ [] ↔ ∃ i, i < cur.length ∧ cur.getD i 0 < (max_speeds_of cfg).getD i 0))) := by
  constructor
  · intro hall
    have hb : belowAny cfg cur = false := by
      rw [Bool.eq_false_iff]
      intro hch
      obtain ⟨i, hi, hlt⟩ := (belowAny_iff cfg cur).mp hch
      rw [hall i hi] at hlt
      exact Nat.lt_irrefl _ hlt
    unfold exec_dethrottle is_below_max_speed
    rw [if_neg (by simp [hlen]), hb]
    rfl
  · intro w lg hex
    by_cases hb : belowAny cfg cur = true
    · have hexists := (belowAny_iff cfg cur).mp hb
      have hok : exec_dethrottle cfg cur = Except.ok
          ((if cfg.use_scaling_available then
              dethrottle_next_higher cfg.scaling_available_frequencies cur
            else dethrottle_highest cfg.cpuinfo_max_freqs cur.length),
           ["Dethrottling CPU.".toList]) := by
        unfold exec_dethrottle is_below_max_speed
        rw [if_neg (by simp [hlen]), hb]
        rfl
      rw [hok] at hex
      simp only [Except.ok.injEq, Prod.mk.injEq] at hex
      obtain ⟨hw, hlg⟩ := hex
      subst hw
      subst hlg
      refine ⟨iff_of_true (by simp) hexists, iff_of_true ?_ hexists⟩
      obtain ⟨i, hi, hlt⟩ := hexists
      by_cases hsa : cfg.use_scaling_available
      · rw [if_pos hsa]
        intro hnil
        simp only [dethrottle_next_higher] at hnil
        rw [List.filterMap_eq_nil_iff] at hnil
        have hrng : i ∈ List.range cur.length := List.mem_range.mpr hi
        have hfi := hnil i hrng
        have hsaf : (max_speeds_of cfg) =
            cfg.scaling_available_frequencies.map listMax := by
          simp [max_speeds_of, hsa]
        have hisaf : i < cfg.scaling_available_frequencies.length := by
          rw [hsaf, List.length_map] at hlen
          omega
        have hmax : (max_speeds_of cfg).getD i 0 =
            listMax (cfg.scaling_available_frequencies.getD i []) := by
          rw [hsaf, List.getD_eq_getElem?_getD, List.getElem?_map,
            List.getD_eq_getElem?_getD, List.getElem?_eq_getElem hisaf]
          simp
        rw [hmax] at hlt
        set avail := cfg.scaling_available_frequencies.getD i [] with havail
        have hne : avail ≠ [] := by
          intro hnil2
          rw [hnil2] at hlt
          exact Nat.not_lt_zero _ hlt
        have hmem : listMax avail ∈ avail := listMax_mem avail hne
        have hmemrow : avail ∈ cfg.scaling_available_frequencies := by
          rw [havail, List.getD_eq_getElem?_getD, List.getElem?_eq_getElem hisaf]
          simp only [Option.getD_some]
          exact List.getElem_mem hisaf
        have hnp : listMax avail < NPOS := hlad avail hmemrow (listMax avail) hmem
        have hfold : avail.foldl
            (fun next v => if v < next ∧ v > cur.getD i 0 then v else next) NPOS < NPOS :=
          dethrottleFold_lt (cur.getD i 0) avail NPOS
            (Or.inl ⟨listMax avail, hmem, hlt, hnp⟩)
        have hsome : nextHigherAt cfg.scaling_available_frequencies cur i =
            some (i, avail.foldl
              (fun next v => if v < next ∧ v > cur.getD i 0 then v else next) NPOS) := by
          show (if avail.foldl
                (fun next v => if v < next ∧ v > cur.getD i 0 then v else next) NPOS ≠ NPOS
              then some (i, avail.foldl
                (fun next v => if v < next ∧ v > cur.getD i 0 then v else next) NPOS)
              else none) = _
          rw [if_pos (Nat.ne_of_lt hfold)]
        rw [hsome] at hfi
        exact Option.some_ne_none _ hfi
      · rw [if_neg hsa]
        intro hnil
        unfold dethrottle_highest at hnil
        rw [List.map_eq_nil_iff, List.range_eq_nil] at hnil
        omega
    · have hb' : belowAny cfg cur = false := Bool.eq_false_iff.mpr hb
      have hok : exec_dethrottle cfg cur = Except.ok ([], []) := by
        unfold exec_dethrottle is_below_max_speed
        rw [if_neg (by simp [hlen]), hb']
        rfl
      rw [hok] at hex
      simp only [Except.ok.injEq, Prod.mk.injEq] at hex
      obtain ⟨hw, hlg⟩ := hex
      subst hw
      subst hlg
      have hno : ¬ ∃ i, i < cur.length ∧ cur.getD i 0 < (max_speeds_of cfg).getD i 0 :=
        fun hx => hb ((belowAny_iff cfg cur).mpr hx)
      exact ⟨iff_of_false (by simp) hno, iff_of_false (by simp) hno⟩

/-- C4 witness: both ceilings already at the hardware max 3000 — the tick
is a no-op with no log line. -/
theorem C4_dethrottle_iff_witness : exec_dethrottle cfg4w [3000, 3000] = Except.ok ([], []) :=
  (C4_dethrottle_iff cfg4w [3000, 3000] (by decide) (by decide)).1 (by decide)

/-- Writing a self-stopped flag through `send_SIGSTOP`/`send_SIGCONT`
never changes any record's whitelisted flag. -/
theorem getRec_setSS_wl (heap : List PidState) (b : Nat) (v : Bool) (a : Nat) :
    (getRec (setSS heap b v) a).is_whitelisted = (getRec heap a).is_whitelisted := by
  unfold setSS setRec getRec
  rw [List.getD_eq_getElem?_getD, List.getD_eq_getElem?_getD, List.getElem?_set]
  by_cases hab : b = a
  · subst hab
    by_cases hlt : b < heap.length
    · simp [hlt, getRec, List.getD_eq_getElem?_getD]
    · simp [hlt, List.getElem?_eq_none (Nat.le_of_not_lt hlt)]
  · simp [hab]

/-- The all-at-once stop loop never touches `pids_`. -/
theorem stopStep_fold_pids (avail : List Nat) :
    ∀ acc : MonState × List (Nat × Int), (avail.foldl stopStep acc).1.pids = acc.1.pids := by
  induction avail with
  | nil => intro acc; rfl
  | cons a rest ih => intro acc; rw [List.foldl_cons, ih]; rfl

/-- The all-at-once stop loop appends exactly its argument list to
`self_stopped_pids_`. -/
theorem stopStep_fold_stopped (avail : List Nat) :
    ∀ acc : MonState × List (Nat × Int),
      (avail.foldl stopStep acc).1.self_stopped = acc.1.self_stopped ++ avail := by
  induction avail with
  | nil => intro acc; simp
  | cons a rest ih =>
    intro acc
    rw [List.foldl_cons, ih]
    simp [stopStep]

/-- The all-at-once stop loop never changes a whitelisted flag. -/
theorem stopStep_fold_wl (avail : List Nat) :
    ∀ (acc : MonState × List (Nat × Int)) (b : Nat),
      (getRec (avail.foldl stopStep acc).1.heap b).is_whitelisted =
        (getRec acc.1.heap b).is_whitelisted := by
  induction avail with
  | nil => intro acc b; rfl
  | cons a rest ih =>
    intro acc b
    rw [List.foldl_cons, ih]
    exact getRec_setSS_wl _ _ _ _

/-- The all-at-once continue loop changes neither `pids_` nor
`self_stopped_pids_`. -/
theorem contStep_fold_state (l : List Nat) :
    ∀ acc : MonState × List (Nat × Int),
      (l.foldl contStep acc).1.pids = acc.1.pids ∧
      (l.foldl contStep acc).1.self_stopped = acc.1.self_stopped := by
  induction l with
  | nil => intro acc; exact ⟨rfl, rfl⟩
  | cons a rest ih =>
    intro acc
    rw [List.foldl_cons]
    exact ih (contStep acc a)

/-- The result of `std::max_element` (when the range is non-empty) is an
element of the range. -/
theorem cppMaxElement_mem {α : Type} (comp : α → α → Bool) (l : List α) (x : α)
    (h : cppMaxElement comp l = some x) : x ∈ l := by
  cases l with
  | nil => cases h
  | cons y ys =>
    simp only [cppMaxElement, Option.some.injEq] at h
    subst h
    refine foldl_pick_mem _ ?_ ys y
    intro a b
    by_cases hc : comp a b = true
    · right; simp [hc]
    · left; simp [hc]

/-- The insertion loop of `update_pids_` only ever appends to `pids_`. -/
theorem addNewPids_mono (cfg : MonitorCfg) (env : RefreshEnv) :
    ∀ (ns : List Int) (heap : List PidState) (pids : List Nat)
      (heap' : List PidState) (pids' : List Nat),
      addNewPids cfg env ns heap pids = Except.ok (heap', pids') →
      ∀ a ∈ pids, a ∈ pids' := by
  intro ns
  induction ns with
  | nil =>
    intro heap pids heap' pids' h a ha
    simp only [addNewPids, Except.ok.injEq, Prod.mk.injEq] at h
    obtain ⟨_, h2⟩ := h
    subst h2
    exact ha
  | cons n rest ih =>
    intro heap pids heap' pids' h a ha
    simp only [addNewPids] at h
    split at h
    · exact ih heap pids heap' pids' h a ha
    · cases hc : Pid.construct cfg n (env.ctorRead n) with
      | error k => rw [hc] at h; cases h
      | ok p =>
        rw [hc] at h
        exact ih _ _ heap' pids' h a (List.mem_append_left _ ha)

/-- The census refresh keeps `self_stopped_pids_` inside its previous
value, and keeps in `pids_` every previously tracked address it keeps in
`self_stopped_pids_`. -/
theorem update_pids_spec (cfg : MonitorCfg) (env : RefreshEnv) (s s1 : MonState)
    (h : update_pids cfg env s = Except.ok s1) :
    (∀ a ∈ s1.self_stopped, a ∈ s.self_stopped) ∧
    (∀ a ∈ s1.self_stopped, a ∈ s.pids → a ∈ s1.pids) := by
  unfold update_pids at h
  cases hL : updateLoop cfg env s.pids 0 s.heap with
  | error k => rw [hL] at h; cases h
  | ok heap1 =>
    rw [hL] at h
    simp only [] at h
    cases hA : addNewPids cfg env env.newPids heap1
        (s.pids.filter fun a => (getRec heap1 a).is_a_process) with
    | error k => rw [hA] at h; cases h
    | ok hp =>
      obtain ⟨heap2, pids2⟩ := hp
      rw [hA] at h
      simp only [Except.ok.injEq] at h
      subst h
      constructor
      · intro a ha
        exact (List.mem_filter.mp ha).1
      · intro a ha hp0
        have hcond := (List.mem_filter.mp ha).2
        simp only [Bool.and_eq_true] at hcond
        have hmem : a ∈ s.pids.filter (fun a => (getRec heap1 a).is_a_process) :=
          List.mem_filter.mpr ⟨hp0, hcond.1⟩
        exact addNewPids_mono cfg env _ _ _ _ _ hA a hmem

/-- Case analysis of a successful `exec_SIGSTOP_`: a census refresh
followed by appending some subset of the available candidates to
`self_stopped_pids_`, with `pids_` and every whitelisted flag unchanged
by the signalling itself. -/
theorem exec_SIGSTOP_cases (cfg : MonitorCfg) (env : RefreshEnv) (s s' : MonState)
    (evs : List (Nat × Int)) (h : exec_SIGSTOP cfg env s = Except.ok (s', evs)) :
    ∃ s1, update_pids cfg env s = Except.ok s1 ∧ s'.pids = s1.pids ∧
      ∃ new, s'.self_stopped = s1.self_stopped ++ new ∧
        (∀ a ∈ new, a ∈ find_SIGSTOP_available_pids s1) ∧
        (∀ a, (getRec s'.heap a).is_whitelisted = (getRec s1.heap a).is_whitelisted) := by
  unfold exec_SIGSTOP at h
  cases hU : update_pids cfg env s with
  | error k => rw [hU] at h; cases h
  | ok s1 =>
    rw [hU] at h
    simp only [] at h
    refine ⟨s1, rfl, ?_⟩
    by_cases hav : (find_SIGSTOP_available_pids s1).length > 0
    · rw [if_pos hav] at h
      by_cases hsw : cfg.use_stepwise_SIGSTOP
      · rw [if_pos hsw] at h
        unfold send_next_SIGSTOP at h
        cases hm : cppMaxElement
            (fun a b => FVal.lt (getRec s1.heap b).pid_cpu_pct (getRec s1.heap a).pid_cpu_pct)
            (find_SIGSTOP_available_pids s1) with
        | none =>
          rw [hm] at h
          simp only [Except.ok.injEq, Prod.mk.injEq] at h
          obtain ⟨h1, _⟩ := h
          subst h1
          exact ⟨rfl, [], by simp, by simp, fun a => rfl⟩
        | some m =>
          rw [hm] at h
          simp only [Except.ok.injEq, Prod.mk.injEq] at h
          obtain ⟨h1, _⟩ := h
          subst h1
          refine ⟨rfl, [m], rfl, ?_, fun a => getRec_setSS_wl _ _ _ _⟩
          intro a ha
          rw [List.mem_singleton.mp ha]
          exact cppMaxElement_mem _ _ _ hm
      · rw [if_neg hsw] at h
        simp only [Except.ok.injEq] at h
        have h1 : (send_all_SIGSTOPs s1 (find_SIGSTOP_available_pids s1)).1 = s' :=
          congrArg Prod.fst h
        subst h1
        unfold send_all_SIGSTOPs
        exact ⟨stopStep_fold_pids _ _, find_SIGSTOP_available_pids s1,
          stopStep_fold_stopped _ _, fun a ha => ha, fun a => stopStep_fold_wl _ _ _⟩
    · rw [if_neg hav] at h
      simp only [Except.ok.injEq, Prod.mk.injEq] at h
      obtain ⟨h1, _⟩ := h
      subst h1
      exact ⟨rfl, [], by simp, by simp, fun a => rfl⟩

/-- Case analysis of a successful `exec_SIGCONT_`: either a no-op (empty
`self_stopped_pids_`) or a census refresh followed by signalling that
changes neither `pids_` nor `self_stopped_pids_`. -/
theorem exec_SIGCONT_cases (cfg : MonitorCfg) (env : RefreshEnv) (s s' : MonState)
    (evs : List (Nat × Int)) (h : exec_SIGCONT cfg env s = Except.ok (s', evs)) :
    (s' = s) ∨
    ∃ s1, update_pids cfg env s = Except.ok s1 ∧ s'.pids = s1.pids ∧
      s'.self_stopped = s1.self_stopped := by
  unfold exec_SIGCONT at h
  by_cases hne : s.self_stopped.length > 0
  · rw [if_pos hne] at h
    cases hU : update_pids cfg env s with
    | error k => rw [hU] at h; cases h
    | ok s1 =>
      rw [hU] at h
      simp only [] at h
      right
      refine ⟨s1, rfl, ?_⟩
      by_cases hsw : cfg.use_stepwise_SIGSTOP
      · rw [if_pos hsw] at h
        simp only [Except.ok.injEq] at h
        have h1 : (send_next_SIGCONT s1).1 = s' := congrArg Prod.fst h
        subst h1
        unfold send_next_SIGCONT
        by_cases hne1 : s1.self_stopped.length > 0
        · rw [if_pos hne1]
          cases hm : cppMinElement
              (fun a b => FVal.lt (getRec s1.heap a).pid_cpu_pct (getRec s1.heap b).pid_cpu_pct)
              s1.self_stopped with
          | none => exact ⟨rfl, rfl⟩
          | some m => exact ⟨rfl, rfl⟩
        · rw [if_neg hne1]; exact ⟨rfl, rfl⟩
      · rw [if_neg hsw] at h
        simp only [Except.ok.injEq] at h
        have h1 : (send_all_SIGCONTs s1).1 = s' := congrArg Prod.fst h
        subst h1
        unfold send_all_SIGCONTs
        exact ⟨(contStep_fold_state _ _).1, (contStep_fold_state _ _).2⟩
  · rw [if_neg hne] at h
    simp only [Except.ok.injEq, Prod.mk.injEq] at h
    exact Or.inl h.1.symm

/-- Every monitor operation preserves "every self-stopped address is a
census address". -/
theorem stepMon_subset (cfg : MonitorCfg) (op : MonOp) (s s' : MonState)
    (evs : List (Nat × Int)) (h : stepMon cfg op s = Except.ok (s', evs))
    (hsub : ∀ a ∈ s.self_stopped, a ∈ s.pids) :
    ∀ a ∈ s'.self_stopped, a ∈ s'.pids := by
  cases op with
  | refresh env =>
    simp only [stepMon] at h
    cases hU : update_pids cfg env s with
    | error k => rw [hU] at h; cases h
    | ok s1 =>
      rw [hU] at h
      simp only [Except.ok.injEq, Prod.mk.injEq] at h
      obtain ⟨h1, _⟩ := h
      intro a ha
      rw [← h1] at ha ⊢
      have hspec := update_pids_spec cfg env s s1 hU
      exact hspec.2 a ha (hsub a (hspec.1 a ha))
  | sigstop env =>
    obtain ⟨s1, hU, hpids, new, hstop, hnew, _⟩ :=
      exec_SIGSTOP_cases cfg env s s' evs h
    intro a ha
    rw [hstop] at ha
    rw [hpids]
    rcases List.mem_append.mp ha with h2 | h2
    · have hspec := update_pids_spec cfg env s s1 hU
      exact hspec.2 a h2 (hsub a (hspec.1 a h2))
    · exact (List.mem_filter.mp (hnew a h2)).1
  | sigcont env =>
    rcases exec_SIGCONT_cases cfg env s s' evs h with h1 | ⟨s1, hU, hpids, hstop⟩
    · subst h1; exact hsub
    · intro a ha
      rw [hstop] at ha
      rw [hpids]
      have hspec := update_pids_spec cfg env s s1 hU
      exact hspec.2 a ha (hsub a (hspec.1 a ha))

/-- The subset invariant holds along any run from a subset-respecting
start state. -/
theorem runOps_subset (cfg : MonitorCfg) :
    ∀ (ops : List MonOp) (s s' : MonState), runOps cfg ops s = Except.ok s' →
      (∀ a ∈ s.self_stopped, a ∈ s.pids) → ∀ a ∈ s'.self_stopped, a ∈ s'.pids := by
  intro ops
  induction ops with
  | nil =>
    intro s s' h hsub
    simp only [runOps, Except.ok.injEq] at h
    subst h
    exact hsub
  | cons op rest ih =>
    intro s s' h hsub
    simp only [runOps] at h
    cases hS : stepMon cfg op s with
    | error k => rw [hS] at h; cases h
    | ok p =>
      obtain ⟨sm, evs⟩ := p
      rw [hS] at h
      exact ih sm s' h (stepMon_subset cfg op s sm evs hS hsub)

/-- C3 amended: in every state reachable from the initial monitor state by
census refreshes, `exec_SIGSTOP_` and `exec_SIGCONT_` operations, every
record in `self_stopped_pids_` is also in the census `pids_`; and a record
is never whitelisted at the moment `exec_SIGSTOP_` adds it to
`self_stopped_pids_`.  (The original claim's stronger clause — that no
record in `self_stopped` is whitelisted even after becoming whitelisted
later — is false; see the counterexample theorem.) -/
theorem C3_selfstopped_subset_census (cfg : MonitorCfg) (ops : List MonOp) (s' : MonState)
    (h : runOps cfg ops monInit = Except.ok s') :
    (∀ a ∈ s'.self_stopped, a ∈ s'.pids) ∧
    (∀ (env : RefreshEnv) (s0 s1 : MonState) (evs : List (Nat × Int)),
      exec_SIGSTOP cfg env s0 = Except.ok (s1, evs) →
      ∀ a ∈ s1.self_stopped, a ∉ s0.self_stopped →
        (getRec s1.heap a).is_whitelisted = false) := by
  constructor
  · exact runOps_subset cfg ops monInit s' h (by intro a ha; cases ha)
  · intro env s0 s1 evs hex a ha hnotin
    obtain ⟨sm, hU, _, new, hstop, hnew, hwl⟩ := exec_SIGSTOP_cases cfg env s0 s1 evs hex
    rw [hstop] at ha
    rcases List.mem_append.mp ha with h2 | h2
    · exact absurd ((update_pids_spec cfg env s0 sm hU).1 a h2) hnotin
    · have hfil := (List.mem_filter.mp (hnew a h2)).2
      simp only [Bool.and_eq_true, Bool.not_eq_true'] at hfil
      rw [hwl a]
      exact hfil.1.2

/-- C3 witness: the amended invariant applied to the concrete reachable
state in which process 10 has just been stopped. -/
theorem C3_selfstopped_subset_census_witness : 0 ∈ c3wS.pids :=
  (C3_selfstopped_subset_census cfgC3 c3wOps c3wS (by decide)).1 0 (by decide)

/-- An accepted `set_and_assert_config_` run leaves both threshold pairs
ordered: an enabled pair passed its assert, a disabled pair was rewritten
to (`u_long` max, 0). -/
theorem set_and_assert_ok_ineq (c c' : ConfigTemps)
    (h : set_and_assert_temps c = Except.ok c') :
    c'.temp_dethrottle ≤ c'.temp_throttle ∧ c'.temp_SIGCONT ≤ c'.temp_SIGSTOP := by
  cases hT : c.use_throttle with
  | false =>
    cases hS : c.use_SIGSTOP with
    | false => simp [set_and_assert_temps, hT, hS] at h
    | true =>
      by_cases hlt2 : c.temp_SIGSTOP < c.temp_SIGCONT
      · simp [set_and_assert_temps, hT, hS, hlt2] at h
      · simp [set_and_assert_temps, hT, hS, hlt2] at h
        subst h
        exact ⟨Nat.zero_le _, Nat.le_of_not_lt hlt2⟩
  | true =>
    by_cases hlt : c.temp_throttle < c.temp_dethrottle
    · simp [set_and_assert_temps, hT, hlt] at h
    · cases hS : c.use_SIGSTOP with
      | false =>
        simp [set_and_assert_temps, hT, hS, hlt] at h
        subst h
        exact ⟨Nat.le_of_not_lt hlt, Nat.zero_le _⟩
      | true =>
        by_cases hlt2 : c.temp_SIGSTOP < c.temp_SIGCONT
        · simp [set_and_assert_temps, hT, hS, hlt, hlt2] at h
        · simp [set_and_assert_temps, hT, hS, hlt, hlt2] at h
          subst h
          exact ⟨Nat.le_of_not_lt hlt, Nat.le_of_not_lt hlt2⟩

/-- A configuration violating the threshold inequality of an enabled mode
is rejected with a `ConfigError`. -/
theorem set_and_assert_violation (d : ConfigTemps)
    (hv : (d.use_throttle = true ∧ d.temp_throttle < d.temp_dethrottle) ∨
          (d.use_SIGSTOP = true ∧ d.temp_SIGSTOP < d.temp_SIGCONT)) :
    set_and_assert_temps d = Except.error ErrKind.configError := by
  rcases hv with ⟨ht, hlt⟩ | ⟨hs, hlt⟩
  · simp [set_and_assert_temps, ht, hlt]
  · by_cases hut : d.use_throttle <;>
      by_cases hlt2 : d.temp_throttle < d.temp_dethrottle <;>
      simp [set_and_assert_temps, hut, hs, hlt, hlt2]

/-- C5: every configuration accepted by the load-time verification has
`temp_throttle ≥ temp_dethrottle` and `temp_SIGSTOP ≥ temp_SIGCONT`
(whatever combination of modes is enabled, since a disabled pair is
rewritten to the extremes), and any configuration whose enabled-mode pair
violates its inequality is rejected with a Config error. -/
theorem C5_thresholds_invariant (c c' : ConfigTemps)
    (h : set_and_assert_temps c = Except.ok c') :
    (c'.temp_dethrottle ≤ c'.temp_throttle ∧ c'.temp_SIGCONT ≤ c'.temp_SIGSTOP) ∧
    (∀ d : ConfigTemps,
      (d.use_throttle = true ∧ d.temp_throttle < d.temp_dethrottle) ∨
      (d.use_SIGSTOP = true ∧ d.temp_SIGSTOP < d.temp_SIGCONT) →
      set_and_assert_temps d = Except.error ErrKind.configError) :=
  ⟨set_and_assert_ok_ineq c c' h, fun d hd => set_and_assert_violation d hd⟩

/-- C5 witness: the invariant at the concrete accepted configuration
`c5w` (both modes enabled, thresholds in order). -/
theorem C5_thresholds_invariant_witness :
    c5wOut.temp_dethrottle ≤ c5wOut.temp_throttle ∧
    c5wOut.temp_SIGCONT ≤ c5wOut.temp_SIGSTOP :=
  (C5_thresholds_invariant c5w c5wOut (by decide)).1

end Templimiter
